import Mathlib

/-!
# The wrapper translation unit `ries-for-windows.c`

The repository consists of one C file whose only effective lines are three
preprocessor directives.  This development embeds

* the text of the file, line by line (`riesForWindowsC`);
* the lexical layer needed to read it: comment removal and directive
  recognition (`scan`, `classify`, `lexFile`);
* the directive layer of the C preprocessor: conditional groups, `#define`
  and `#undef`, `#error`, `#pragma once` and `#include` (`step`, `run`,
  `runFile`), with the way an inclusion is carried out as a parameter.

Two ways of carrying out an inclusion are given.

* The wrapper layer (`spliceFile`, `preprocess`, `build`): an included file is
  spliced into the merged unit unread, as one segment, and what its text does
  to the macro table is a parameter (`Effect`).  It tells what the wrapper
  itself does and with which macro table each of its directives is reached,
  for every behaviour of the included text.
* The full build (`includeAt`, `preprocessFull`, `buildFull`): the text of an
  included file is lexed and processed by the same rules as the top-level
  file, so it can fail, change the macro table and include further files, to a
  given depth of nesting.  It tells the outcome of a build.  The first error
  ends the build, as every error does in the compiler the wrapper is written
  for.

Macro replacement inside running text is not modelled (the only macro the
wrapper defines has an empty replacement list), nor is line splicing (no line
of the wrapper ends in a backslash, `no_line_splice`).  Controlling expressions
of `#if` are evaluated when they are a decimal literal or a `defined` test,
possibly negated; any other is reported as `badCondition`.
-/

namespace RiesForWindows

/-- Content of a source file: its lines, without the line terminators. -/
abbrev Content := List String

/-- The file `src/ries-for-windows.c`, all 103 lines of it. -/
def riesForWindowsC : Content :=
[
  "/* ries-for-windows.c",
  "",
  "    Wrapper source file for compiling RIES in Microsoft Visual C (or C++)",
  "    Copyright (C) 2000-2024 Robert P. Munafo",
  "    This is the 2024 May 20 version of \"ries-for-windows.c\"",
  "",
  "",
  "    This program is free software; you can redistribute it and/or modify",
  "    it under the terms of the GNU General Public License as published by",
  "    the Free Software Foundation; either version 2 of the License, or",
  "    (at your option) any later version.",
  "",
  "    This program is distributed in the hope that it will be useful,",
  "    but WITHOUT ANY WARRANTY; without even the implied warranty of",
  "    MERCHANTABILITY or FITNESS FOR A PARTICULAR PURPOSE.  See the",
  "    GNU General Public License for more details.",
  "",
  "    You should have received a copy of the GNU General Public License",
  "    along with this program; if not, write to the Free Software",
  "    Foundation, Inc., 675 Mass Ave, Cambridge, MA 02139, USA.",
  "",
  "    If you got ries.c from the website www.mrob.com, the",
  "    GNU General Public License may be retrieved from the following URL:",
  "",
  "    http://www.mrob.com/ries/COPYING.txt",
  "*/",
  "",
  "/* Instructions:",
  "",
  "(This is based partly on msdn.microsoft.com/en-us/library/ms235629.aspx",
  "and I may have gotten parts wrong)",
  "",
  "1. Go to the RIES website (mrob.com/ries) and follow the \"Source code\"",
  "   link. Download and save the source files. There should be:",
  "",
  "    * This file, called \"ries-for-windows.c\"",
  "    * The main source code, called \"ries.c\"",
  "    * Optionally, the stand-alone maths functions library \"msal_math64.c\"",
  "",
  "2. Make a new folder (directory) and put the downloaded files there.",
  "",
  "3. In Visual Studio, select File > New > Project from Existing Code",
  "   Select \"Visual C++\"",
  "   Project file location: select the directory you created in step 2.",
  "   Project name: give the project any name you wish.",
  "   Project type: select \"Win32\", then \"Win32 Console Application\"",
  "   You may leave \"precompiled header\" selected.",
  "",
  "4. In Solution Explorer, right-click \"Source files\" and select Add >",
  "   Existing Item... Select the source file \"ries-for-windows.c\".",
  "   Do not add the other files like \"ries.c\". (they will be #included by",
  "   ries-for-windows.c).",
  "",
  "5. It should compile and run (using the green \"play\" button). If not,",
  "   comment out the line that says #include \"stdafx.h\", and then go into",
  "   Configuration Properties -> C/C++ -> Precompiled Headers",
  "   and select Precompiled Header: Not Using Precompiled Headers",
  "",
  "6. RIES will run a lot faster with these additional project",
  "   configuration settings:",
  "",
  "   Configuration Properties -> C/C++ -> Code Generation",
  "     Basic Runtime Checks: Default",
  "     Enable Minimal Rebuild: No (/Gm-)",
  "   Configuration Properties -> C/C++ -> General",
  "     Debug Information Format: C7 compatible (/Z7)",
  "   Configuration Properties -> Linker -> General",
  "     Enable Incremental Linking: No (/INCREMENTAL:NO)",
  "   Configuration Properties -> Linker -> Optimization",
  "     Link-Time Code Generation: Use Link Time Code Generation (/LTCG)",
  "   Configuration Properties -> C/C++ -> Optimization",
  "     Optimization: Full Optimization (/Ox)",
  "     Enable Intrinsic Functions: Yes (/Oi)",
  "     Favor Size Or Speed: Favor fast code (/Ot)",
  "     Omit Frame Pointers: Yes (/Oy)",
  "     Enable Fiber-Safe Optimizations: Yes (/GT)",
  "     Whole Program Optimization: Yes (/GL)",
  "",
  "7. Again, compile and run (with the green \"play\" button). You'll probably see",
  "   \"this project is out of date, do you want to build it?\", select Yes.",
  "   A command window should appear briefly, displaying a message like",
  "   \"ries: Please specify a target number.\" and some lines of instructions.",
  "",
  "8. Use Debug > Build Solution to build an executable. It will put it in",
  "   \"Debug\\ries.exe\", or something different depending on which build",
  "   configuration you currently have active and what what you chose as the",
  "   project name. The EXE can be run from the command line with arguments.",
  "",
  "If you turned off the precompiled headers option in the VC++ project,",
  "you can compile the \"ries.c\" source directly, rather than using this",
  "stub. With precompiled headers turned off RIES will compile more",
  "slowly. If you aren't compiling RIES often, this may be preferable.",
  "",
  "In either case, keep in mind that RIES is vanilla C with stdio: it",
  "interacts with the user only through the console window (command-line",
  "interface).",
  "",
  "*/",
  "",
  "#include \"stdafx.h\"",
  "",
  "#define RIES_USED_RFWC",
  "#include \"ries.c\""
]

/-! ## Lexical layer -/

/-- The double quote character. -/
def dquote : Char := Char.ofNat 34

/-- The backslash character. -/
def backslash : Char := Char.ofNat 92

/-- Blank characters inside a line. -/
def isBlankChar (c : Char) : Bool := c == ' ' || c == '\t' || c == '\r'

/-- Characters of an identifier or keyword. -/
def isIdentChar (c : Char) : Bool := c.isAlphanum || c == '_'

/-- States of the comment scanner. -/
inductive Lex
  | code          -- ordinary text
  | slash         -- a `/` has been read in ordinary text
  | comment       -- inside a block comment
  | star          -- a `*` has been read inside a block comment
  | lineComment   -- after `//`, up to the end of the line
  | str           -- inside a string literal
  | strEsc        -- after a backslash inside a string literal
  deriving DecidableEq, Repr

/-- One character of input: the next state and the characters that survive. -/
def Lex.next : Lex → Char → Lex × List Char
  | .code, c =>
      if c == '/' then (.slash, [])
      else if c == dquote then (.str, [c])
      else (.code, [c])
  | .slash, c =>
      if c == '*' then (.comment, [])
      else if c == '/' then (.lineComment, [])
      else if c == dquote then (.str, ['/', c])
      else (.code, ['/', c])
  | .comment, c => if c == '*' then (.star, []) else (.comment, [])
  | .star, c =>
      if c == '/' then (.code, [' '])
      else if c == '*' then (.star, [])
      else (.comment, [])
  | .lineComment, _ => (.lineComment, [])
  | .str, c =>
      if c == dquote then (.code, [c])
      else if c == backslash then (.strEsc, [c])
      else (.str, [c])
  | .strEsc, c => (.str, [c])

/-- State at the start of the next line: only a block comment stays open. -/
def Lex.eol : Lex → Lex
  | .comment => .comment
  | .star => .comment
  | _ => .code

/-- Characters still owed at the end of a line. -/
def Lex.flush : Lex → List Char
  | .slash => ['/']
  | _ => []

/-- Remove the comments of one line, starting in state `s`. -/
def scan : Lex → List Char → Lex × List Char
  | s, [] => (s.eol, s.flush)
  | s, c :: cs =>
      let r := scan (s.next c).1 cs
      (r.1, (s.next c).2 ++ r.2)

/-- Drop leading blanks. -/
def dropBlanks (cs : List Char) : List Char := cs.dropWhile isBlankChar

/-- Drop leading and trailing blanks. -/
def trim (cs : List Char) : List Char := (dropBlanks (dropBlanks cs).reverse).reverse

/-- Preprocessor directives, by keyword. -/
inductive Directive
  | includeFile (file : String) (angled : Bool)
  | define (name body : String)
  | undef (name : String)
  | ifdef (name : String)
  | ifndef (name : String)
  | ifExpr (cond : String)
  | elif (cond : String)
  | elseGroup
  | endif
  | other (keyword rest : String)
  deriving DecidableEq, Repr

/-- A lexed line. -/
inductive Line
  | blank
  | directive (d : Directive)
  | text (s : String)
  deriving DecidableEq, Repr

/-- Operand of `#include`: a name between double quotes or angle brackets. -/
def parseInclude (arg : List Char) : Directive :=
  match arg with
  | [] => .other "include" ""
  | c :: cs =>
      if c == dquote then
        if cs.dropWhile (fun x => x != dquote) == [dquote] then
          .includeFile (String.mk (cs.takeWhile (fun x => x != dquote))) false
        else .other "include" (String.mk arg)
      else if c == '<' then
        if cs.dropWhile (fun x => x != '>') == ['>'] then
          .includeFile (String.mk (cs.takeWhile (fun x => x != '>'))) true
        else .other "include" (String.mk arg)
      else .other "include" (String.mk arg)

/-- The text after `#`: keyword and operands. -/
def parseDirective (rest : List Char) : Directive :=
  let r := dropBlanks rest
  let kw := String.mk (r.takeWhile isIdentChar)
  let arg := trim (r.dropWhile isIdentChar)
  let name := String.mk (arg.takeWhile isIdentChar)
  if kw == "include" then parseInclude arg
  else if kw == "define" then .define name (String.mk (trim (arg.dropWhile isIdentChar)))
  else if kw == "undef" then .undef name
  else if kw == "ifdef" then .ifdef name
  else if kw == "ifndef" then .ifndef name
  else if kw == "if" then .ifExpr (String.mk arg)
  else if kw == "elif" then .elif (String.mk arg)
  else if kw == "else" then .elseGroup
  else if kw == "endif" then .endif
  else .other kw (String.mk arg)

/-- Classify a line whose comments have been removed. -/
def classify (cs : List Char) : Line :=
  match trim cs with
  | [] => .blank
  | c :: rest => if c == '#' then .directive (parseDirective rest) else .text (String.mk (c :: rest))

/-- Remove the comments of every line, carrying an open block comment from
line to line. -/
def stripFrom : Lex → Content → List (List Char)
  | _, [] => []
  | s, l :: ls => (scan s l.data).2 :: stripFrom (scan s l.data).1 ls

/-- The lines of a file with their comments removed. -/
def stripFile (src : Content) : List (List Char) := stripFrom .code src

/-- State of the comment scanner at the start of the line that follows the
characters `cs`; the same state as `scan` returns. -/
def endState : Lex → List Char → Lex
  | s, [] => s.eol
  | s, c :: cs =>
      match s.next c with
      | (s1, _) => endState s1 cs

/-- State of the comment scanner after the last line of a file. -/
def finalLex : Lex → Content → Lex
  | s, [] => s
  | s, l :: ls =>
      match endState s l.data with
      | .comment => finalLex .comment ls
      | _ => finalLex .code ls

/-- The file ends inside a block comment. -/
def endsInComment (src : Content) : Bool := finalLex .code src == .comment

/-- Lex a whole file: one classified line per source line. -/
def lexFile (src : Content) : List Line := (stripFile src).map classify

/-- The directives of a file, in order of appearance. -/
def directives (src : Content) : List Directive :=
  (lexFile src).filterMap (fun l => match l with | .directive d => some d | _ => none)

/-- Line numbers, counted from `i`, of the entries that satisfy `p`. -/
def numbersFrom {α : Type} (p : α → Bool) : Nat → List α → List Nat
  | _, [] => []
  | i, x :: xs => if p x then i :: numbersFrom p (i + 1) xs else numbersFrom p (i + 1) xs

/-- Source line numbers (first line is 1) of the entries that satisfy `p`. -/
def lineNumbers {α : Type} (p : α → Bool) (xs : List α) : List Nat := numbersFrom p 1 xs

/-- The line ends in a backslash, which would splice it with the next one. -/
def endsInBackslash (l : String) : Bool := l.data.getLast? == some backslash

/-- The line is a `#define` of the name `n`. -/
def Line.definesName (n : String) : Line → Bool
  | .directive (.define m _) => m == n
  | _ => false

/-- The line is an `#include` of the file `f`. -/
def Line.includesFile (f : String) : Line → Bool
  | .directive (.includeFile g _) => g == f
  | _ => false

/-- The macro table: defined names with their replacement text. -/
abbrev Macros := List (String × String)

/-- Whether a name is defined in the macro table. -/
def isDefined (m : Macros) (n : String) : Bool := m.any (fun p => p.1 == n)

/-- Effect of `#undef n`. -/
def undefMacro (m : Macros) (n : String) : Macros := m.filter (fun p => p.1 != n)

/-- Effect of `#define n b`. -/
def defineMacro (m : Macros) (n b : String) : Macros := (n, b) :: undefMacro m n

/-- File environment: what each file name resolves to, if anything. -/
abbrev Env := String → Option Content

/-- What processing the text of an included file does to the macro table.
The included files are not part of the wrapper; their action on the table
is a parameter of the build. -/
abbrev Effect := Content → Macros → Macros

/-- Errors of the directive layer. -/
inductive Error
  | fileNotFound (file : String)
  | includeDepth (file : String)
  | strayDirective (keyword : String)
  | unterminatedConditional
  | unterminatedComment
  | badCondition (cond : String)
  | badInclude (operand : String)
  | badName (keyword : String)
  | unknownDirective (keyword : String)
  | errorDirective (message : String)
  deriving DecidableEq, Repr

/-- Pieces of a merged unit, in order. -/
inductive Segment
  | define (name body : String)
  | undef (name : String)
  | other (keyword rest : String)
  | text (line : String)
  | file (name : String) (content : Content)
  deriving DecidableEq, Repr

/-- One open conditional (`#if` ... `#endif`). -/
structure CondFrame where
  /-- the enclosing group is being processed -/
  parent : Bool
  /-- a group of this conditional has already been selected -/
  taken : Bool
  /-- the current group is being processed -/
  live : Bool
  /-- `#else` has been seen -/
  seenElse : Bool
  deriving DecidableEq, Repr

/-- State of the preprocessor while it reads a file. -/
structure PState where
  /-- current macro table -/
  macros : Macros
  /-- files marked `#pragma once`: they are not read a second time -/
  once : List String
  /-- open conditionals of the file being read, innermost first -/
  conds : List CondFrame
  /-- merged unit produced so far -/
  unit : List Segment
  /-- directives carried out so far, each with the macro table in force when
  it was reached -/
  log : List (Directive × Macros)
  deriving DecidableEq, Repr

/-- State in which a file is entered with macro table `m` and once-only files
`o`, nothing produced yet. -/
def PState.fresh (m : Macros) (o : List String) : PState :=
  { macros := m, once := o, conds := [], unit := [], log := [] }

/-- State before the first line of a top-level file. -/
def PState.init (m : Macros) : PState := PState.fresh m []

/-- Whether the lines being read are processed or skipped. -/
def PState.live (st : PState) : Bool :=
  match st.conds with
  | [] => true
  | f :: _ => f.live

/-- Append a segment to the merged unit. -/
def PState.emit (st : PState) (s : Segment) : PState := { st with unit := st.unit ++ [s] }

/-- Enter a conditional whose first group has condition `c`. -/
def PState.openGroup (st : PState) (c : Bool) : PState :=
  { st with conds :=
      { parent := st.live, taken := st.live && c, live := st.live && c, seenElse := false }
        :: st.conds }

/-- An operand of `#if`: a decimal literal, `defined X` or `defined(X)`. -/
def evalAtom (m : Macros) (t : List Char) : Option Bool :=
  if t != [] && t.all Char.isDigit then some (t.any (fun c => c != '0'))
  else if t.takeWhile isIdentChar == "defined".data then
    let arg := trim (t.dropWhile isIdentChar)
    let name := match arg with
      | [] => []
      | c :: r => if c == '(' then trim (r.takeWhile (fun x => x != ')')) else arg
    let closed := match arg with
      | [] => false
      | c :: r => if c == '(' then r.dropWhile (fun x => x != ')') == [')'] else true
    if closed && name != [] && name.all isIdentChar then some (isDefined m (String.mk name))
    else none
  else none

/-- The controlling expressions handled: an operand, possibly negated.  Any
other expression, well formed or not, is reported as `badCondition`. -/
def evalCond (m : Macros) (e : String) : Option Bool :=
  match trim e.data with
  | [] => none
  | c :: r => if c == '!' then (evalAtom m (trim r)).map not else evalAtom m (c :: r)

/-- A macro name: not empty, not starting with a digit. -/
def isName (n : String) : Bool :=
  match n.data with
  | [] => false
  | c :: _ => !c.isDigit

/-- How an `#include` that is reached is carried out: the file name and the
state at the directive give the state after the file, or an error. -/
abbrev Includer := String → PState → Except Error PState

/-- Process one line of the file named `file`. -/
def step (incl : Includer) (file : String) (l : Line) (st : PState) : Except Error PState :=
  match l with
  | .blank => .ok st
  | .text s => .ok (if st.live then st.emit (.text s) else st)
  | .directive (.ifdef n) =>
      if st.live && !isName n then .error (.badName "ifdef")
      else .ok (st.openGroup (isDefined st.macros n))
  | .directive (.ifndef n) =>
      if st.live && !isName n then .error (.badName "ifndef")
      else .ok (st.openGroup (!isDefined st.macros n))
  | .directive (.ifExpr e) =>
      if st.live then
        match evalCond st.macros e with
        | some c => .ok (st.openGroup c)
        | none => .error (.badCondition e)
      else .ok (st.openGroup false)
  | .directive (.elif e) =>
      match st.conds with
      | [] => .error (.strayDirective "elif")
      | f :: fs =>
          if f.seenElse then .error (.strayDirective "elif")
          else if f.parent && !f.taken then
            match evalCond st.macros e with
            | some c => .ok { st with conds := { f with taken := c, live := c } :: fs }
            | none => .error (.badCondition e)
          else .ok { st with conds := { f with live := false } :: fs }
  | .directive .elseGroup =>
      match st.conds with
      | [] => .error (.strayDirective "else")
      | f :: fs =>
          if f.seenElse then .error (.strayDirective "else")
          else .ok { st with conds :=
            { f with taken := true, live := f.parent && !f.taken, seenElse := true } :: fs }
  | .directive .endif =>
      match st.conds with
      | [] => .error (.strayDirective "endif")
      | _ :: fs => .ok { st with conds := fs }
  | .directive (.includeFile f a) =>
      if st.live then
        incl f
          { macros := st.macros
            once := st.once
            conds := st.conds
            unit := st.unit
            log := st.log ++ [(.includeFile f a, st.macros)] }
      else .ok st
  | .directive (.define n b) =>
      if st.live then
        if isName n then
          .ok { macros := defineMacro st.macros n b
                once := st.once
                conds := st.conds
                unit := st.unit ++ [.define n b]
                log := st.log ++ [(.define n b, st.macros)] }
        else .error (.badName "define")
      else .ok st
  | .directive (.undef n) =>
      if st.live then
        if isName n then
          .ok { macros := undefMacro st.macros n
                once := st.once
                conds := st.conds
                unit := st.unit ++ [.undef n]
                log := st.log ++ [(.undef n, st.macros)] }
        else .error (.badName "undef")
      else .ok st
  | .directive (.other kw rest) =>
      if st.live then
        if kw == "error" then .error (.errorDirective rest)
        else if kw == "include" then .error (.badInclude rest)
        else if kw == "pragma" && rest == "once" then
          .ok { macros := st.macros
                once := file :: st.once
                conds := st.conds
                unit := st.unit
                log := st.log ++ [(.other kw rest, st.macros)] }
        else if kw == "pragma" || kw == "line" then
          .ok { macros := st.macros
                once := st.once
                conds := st.conds
                unit := st.unit ++ [.other kw rest]
                log := st.log ++ [(.other kw rest, st.macros)] }
        else if kw == "" && rest == "" then .ok st
        else .error (.unknownDirective kw)
      else .ok st

/-- Process the lines of the file named `file` in order; every conditional
must be closed by the end of the file. -/
def run (incl : Includer) (file : String) : List Line → PState → Except Error PState
  | [], st => if st.conds.isEmpty then .ok st else .error .unterminatedConditional
  | l :: ls, st =>
      match step incl file l st with
      | .error e => .error e
      | .ok st1 => run incl file ls st1

/-- Process the text of the file named `file`: a block comment must not be
left open. -/
def runFile (incl : Includer) (file : String) (src : Content) (st : PState) :
    Except Error PState :=
  if endsInComment src then .error .unterminatedComment else run incl file (lexFile src) st

/-- Name of the wrapper file. -/
def wrapperName : String := "ries-for-windows.c"

/-! ### The wrapper layer

Here an included file is spliced in unread, as one segment, and its action on
the macro table is the parameter `eff`.  This layer tells what the wrapper
itself does and with which macro table each of its directives is reached. -/

/-- Inclusion at the wrapper layer: the content is spliced in unread. -/
def spliceFile (env : Env) (eff : Effect) : Includer := fun file st =>
  match env file with
  | none => .error (.fileNotFound file)
  | some c =>
      .ok { macros := eff c st.macros
            once := st.once
            conds := st.conds
            unit := st.unit ++ [.file file c]
            log := st.log }

/-- Preprocess a top-level file from the initial macro table `m0`, at the
wrapper layer. -/
def preprocess (env : Env) (eff : Effect) (m0 : Macros) (src : Content) : Except Error PState :=
  runFile (spliceFile env eff) wrapperName src (PState.init m0)

/-- The build at the wrapper layer: the merged unit of a top-level file with
the included files spliced in unread, or the error that stopped it. -/
def build (env : Env) (eff : Effect) (m0 : Macros) (src : Content) :
    Except Error (List Segment) :=
  match preprocess env eff m0 src with
  | .error e => .error e
  | .ok st => .ok st.unit

/-! ### The full build

Here the text of an included file is lexed and processed by the same rules as
the top-level file, with conditionals of its own, so that it can fail, change
the macro table and include further files.  Inclusions nest to a given depth;
one more level is the error `includeDepth`. -/

/-- Inclusion in the full build, with `n` levels of nesting left: a missing
file is an error, a file marked once-only is skipped, any other file is
processed from its first line with no conditional open. -/
def includeAt (env : Env) : Nat → Includer
  | 0, file, _ => .error (.includeDepth file)
  | n + 1, file, st =>
      match env file with
      | none => .error (.fileNotFound file)
      | some c =>
          if st.once.contains file then .ok st
          else
            match runFile (includeAt env n) file c
                { macros := st.macros, once := st.once, conds := [], unit := st.unit,
                  log := st.log } with
            | .error e => .error e
            | .ok st1 =>
                .ok { macros := st1.macros, once := st1.once, conds := st.conds,
                      unit := st1.unit, log := st1.log }

/-- Processing the text `c` of the file named `file` in the full build, entered
with macro table `m` and once-only files `o`, with `depth` levels of nesting
left for its own inclusions. -/
def processed (env : Env) (depth : Nat) (file : String) (c : Content) (m : Macros)
    (o : List String) : Except Error PState :=
  runFile (includeAt env depth) file c (PState.fresh m o)

/-- Preprocess the top-level file named `file` from the initial macro table
`m0`, included files and all, with inclusions nested at most `depth` levels. -/
def preprocessFull (env : Env) (depth : Nat) (m0 : Macros) (file : String) (src : Content) :
    Except Error PState :=
  processed env depth file src m0 []

/-- The full build: the merged unit of a top-level file, or the error that
stopped it. -/
def buildFull (env : Env) (depth : Nat) (m0 : Macros) (file : String) (src : Content) :
    Except Error (List Segment) :=
  match preprocessFull env depth m0 file src with
  | .error e => .error e
  | .ok st => .ok st.unit

/-- The marker symbol of the wrapper. -/
def RIES_USED_RFWC : String := "RIES_USED_RFWC"

/-- The wrapper after step 5 of its instructions: every line that says
exactly `target` is turned into a line comment. -/
def commentOut (target : String) (src : Content) : Content :=
  src.map (fun l => if l == target then "// " ++ l else l)

/-- The line of the wrapper that step 5 of the instructions refers to. -/
def stdafxLine : String := "#include " ++ String.mk [dquote] ++ "stdafx.h" ++ String.mk [dquote]

/-- The wrapper with its `stdafx.h` line commented out. -/
def riesForWindowsNoPch : Content := commentOut stdafxLine riesForWindowsC

/-- Line 102 of the wrapper, the definition of the marker. -/
def markerLine : String := "#define RIES_USED_RFWC"

/-- Direct compilation of `ries.c` with the marker defined in front, as the
closing paragraph of the instructions describes it (`ries.c` compiled by
itself, not through the stub) with the one thing the stub adds: the top-level
file is the text of `ries.c` preceded by line 102 of the wrapper. -/
def compileDirectWithMarker (env : Env) (depth : Nat) (m0 : Macros) :
    Except Error (List Segment) :=
  match env "ries.c" with
  | none => .error (.fileNotFound "ries.c")
  | some c => buildFull env depth m0 "ries.c" (markerLine :: c)

/-- Direct compilation of `ries.c` as it stands. -/
def compileDirect (env : Env) (depth : Nat) (m0 : Macros) : Except Error (List Segment) :=
  match env "ries.c" with
  | none => .error (.fileNotFound "ries.c")
  | some c => buildFull env depth m0 "ries.c" c

/-- The macro definitions a directive list makes: name and replacement text. -/
def definitions (ds : List Directive) : List (String × String) :=
  ds.filterMap (fun d => match d with | .define n b => some (n, b) | _ => none)

/-- The state `s` reached from a fresh start, put after what `st` already holds. -/
def PState.onto (st s : PState) : PState :=
  { macros := s.macros
    once := s.once
    conds := st.conds
    unit := st.unit ++ s.unit
    log := st.log ++ s.log }

/-- One admissible effect of included text on the macro table: its
unconditional `#define` and `#undef` lines, applied in order. -/
def topLevelEffect : Effect := fun c m =>
  (lexFile c).foldl (fun acc l =>
    match l with
    | .directive (.define n b) => defineMacro acc n b
    | .directive (.undef n) => undefMacro acc n
    | _ => acc) m

/-- A file environment given by a finite table. -/
def envOf (fs : List (String × Content)) : Env := fun f => fs.lookup f

/-- A stand-in for the main source. -/
def sampleRies : Content := ["int main(void);"]

/-- A precompiled-header file that includes nothing. -/
def plainStdafx : Content := ["#pragma once", "#define WIN32_LEAN_AND_MEAN"]

/-- A main source that tests the marker. -/
def guardedRies : Content :=
  ["#ifdef RIES_USED_RFWC", "int via_wrapper;", "#else", "int standalone;", "#endif"]

/-- A text that stops the build. -/
def failingText : Content := ["#error stop"]

/-- Nesting depth used in the examples. -/
def sampleDepth : Nat := 8

/-- Environment that holds a main source only. -/
def envRiesOnly : Env := envOf [("ries.c", guardedRies)]

/-- Environment that holds a precompiled header and a main source, both well formed. -/
def envPlain : Env := envOf [("stdafx.h", plainStdafx), ("ries.c", guardedRies)]

/-- Environment that holds a precompiled header only. -/
def envStdafxOnly : Env := envOf [("stdafx.h", plainStdafx)]

/-- Environment without `ries.c` whose `stdafx.h` stops the build. -/
def envStdafxFails : Env := envOf [("stdafx.h", failingText)]

/-- Environment with both files whose `stdafx.h` stops the build. -/
def envStdafxFailsBoth : Env := envOf [("stdafx.h", failingText), ("ries.c", sampleRies)]

/-- Environment whose `ries.c` stops the build. -/
def envRiesFails : Env := envOf [("ries.c", failingText)]

/-- Environment whose `stdafx.h` includes `ries.c`, a once-only file. -/
def envRiesReadOnce : Env :=
  envOf [("stdafx.h", ["#include \"ries.c\""]), ("ries.c", ["#pragma once", "int r;"])]

/-- The state `st` with `u` and `lg` put in front of what it has produced. -/
def PState.graft (u : List Segment) (lg : List (Directive × Macros)) (st : PState) : PState :=
  { macros := st.macros
    once := st.once
    conds := st.conds
    unit := u ++ st.unit
    log := lg ++ st.log }

/-- Inclusion of the file named `file` in the full build from a fresh state:
macro table `m`, once-only files `o`, nothing produced yet. -/
def included (env : Env) (depth : Nat) (file : String) (m : Macros) (o : List String) :
    Except Error PState :=
  includeAt env depth file (PState.fresh m o)

/-! ## The wrapper, lexed -/

set_option maxRecDepth 100000 in
/-- Lines 1 to 99 of the wrapper are comment or blank; the directives sit on
lines 100, 102 and 103. -/
theorem lexFile_wrapper : lexFile riesForWindowsC =
    List.replicate 99 Line.blank ++
      [.directive (.includeFile "stdafx.h" false), .blank,
       .directive (.define "RIES_USED_RFWC" ""), .directive (.includeFile "ries.c" false)] := by
  decide

set_option maxRecDepth 100000 in
/-- With the `stdafx.h` line commented out, two directives remain. -/
theorem lexFile_noPch : lexFile riesForWindowsNoPch =
    List.replicate 101 Line.blank ++
      [.directive (.define "RIES_USED_RFWC" ""), .directive (.includeFile "ries.c" false)] := by
  decide

set_option maxRecDepth 100000 in
/-- The last comment of the wrapper is closed. -/
theorem endsInComment_wrapper : endsInComment riesForWindowsC = false := by
  decide

set_option maxRecDepth 100000 in
/-- The last comment of the edited wrapper is closed. -/
theorem endsInComment_noPch : endsInComment riesForWindowsNoPch = false := by
  decide

/-- No line of the wrapper is continued on the next one. -/
theorem no_line_splice : lineNumbers endsInBackslash riesForWindowsC = [] := by
  decide

/-- The three directives of the wrapper. -/
theorem directives_wrapper : directives riesForWindowsC =
    [.includeFile "stdafx.h" false, .define "RIES_USED_RFWC" "", .includeFile "ries.c" false] := by
  unfold directives
  rw [lexFile_wrapper]
  decide

/-! ## The wrapper layer, run -/

/-- Blank lines do nothing. -/
theorem run_replicate_blank (incl : Includer) (file : String) (n : Nat) (ls : List Line)
    (st : PState) :
    run incl file (List.replicate n Line.blank ++ ls) st = run incl file ls st := by
  induction n with
  | zero => rfl
  | succ k ih => simpa [List.replicate_succ, run, step] using ih

/-- The directive layer does look at the macro table: a conditional selects
different groups under different tables. -/
theorem conditional_groups_select :
    build (envOf []) topLevelEffect [("A", "")]
        ["#ifdef A", "int x;", "#else", "int y;", "#endif"] = .ok [.text "int x;"] ∧
    build (envOf []) topLevelEffect []
        ["#ifdef A", "int x;", "#else", "int y;", "#endif"] = .ok [.text "int y;"] :=
  ⟨rfl, rfl⟩

/-! ## The full build, run -/

/-- The end state used for the open-comment test is the one the lexer carries. -/
theorem endState_eq_scan (s : Lex) (cs : List Char) : endState s cs = (scan s cs).1 := by
  induction cs generalizing s with
  | nil => rfl
  | cons c cs ih => simp [endState, scan, ih]

/-- A file processed to its end leaves no conditional open. -/
theorem run_ok_conds (incl : Includer) (file : String) (ls : List Line) (st s : PState)
    (h : run incl file ls st = .ok s) : s.conds = [] := by
  induction ls generalizing st with
  | nil =>
    simp only [run] at h
    split at h
    · rename_i hc
      cases h
      simpa using hc
    · cases h
  | cons l ls ih =>
    simp only [run] at h
    split at h
    · cases h
    · exact ih _ h

/-- What a line produces is appended to what is there already. -/
theorem step_graft (incl : Includer) (u : List Segment) (lg : List (Directive × Macros))
    (hincl : ∀ f st, incl f (PState.graft u lg st) = Except.map (PState.graft u lg) (incl f st))
    (file : String) (l : Line) (st : PState) :
    step incl file l (PState.graft u lg st) =
      Except.map (PState.graft u lg) (step incl file l st) := by
  cases l with
  | blank => rfl
  | text s =>
    simp only [step, PState.live, PState.graft, PState.emit]
    split <;> simp [Except.map, PState.graft]
  | directive d =>
    cases d with
    | includeFile f a =>
      simp only [step, PState.live, PState.graft]
      split
      · have := hincl f
          (PState.mk st.macros st.once st.conds st.unit
            (st.log ++ [(Directive.includeFile f a, st.macros)]))
        simpa [PState.graft] using this
      · rfl
    | define n b =>
      simp only [step, PState.live, PState.graft]
      split <;> [split; skip] <;> simp [Except.map, PState.graft]
    | undef n =>
      simp only [step, PState.live, PState.graft]
      split <;> [split; skip] <;> simp [Except.map, PState.graft]
    | ifdef n =>
      simp only [step, PState.live, PState.graft, PState.openGroup]
      split <;> simp [Except.map, PState.graft]
    | ifndef n =>
      simp only [step, PState.live, PState.graft, PState.openGroup]
      split <;> simp [Except.map, PState.graft]
    | ifExpr e =>
      simp only [step, PState.live, PState.graft, PState.openGroup]
      split
      · split <;> simp [Except.map, PState.graft]
      · simp [Except.map, PState.graft]
    | elif e =>
      simp only [step, PState.graft]
      cases st.conds with
      | nil => simp [Except.map]
      | cons fr fs =>
        simp only
        split
        · simp [Except.map]
        · split
          · split <;> simp [Except.map, PState.graft]
          · simp [Except.map, PState.graft]
    | elseGroup =>
      simp only [step, PState.graft]
      cases st.conds with
      | nil => simp [Except.map]
      | cons fr fs =>
        simp only
        split <;> simp [Except.map, PState.graft]
    | endif =>
      simp only [step, PState.graft]
      cases st.conds with
      | nil => simp [Except.map]
      | cons fr fs => simp [Except.map, PState.graft]
    | other kw rest =>
      simp only [step, PState.live, PState.graft]
      split
      · split
        · simp [Except.map]
        · split
          · simp [Except.map]
          · split
            · simp [Except.map, PState.graft]
            · split
              · simp [Except.map, PState.graft]
              · split <;> simp [Except.map, PState.graft]
      · simp [Except.map, PState.graft]

/-- What the lines of a file produce is appended to what is there already. -/
theorem run_graft (incl : Includer) (u : List Segment) (lg : List (Directive × Macros))
    (hincl : ∀ f st, incl f (PState.graft u lg st) = Except.map (PState.graft u lg) (incl f st))
    (file : String) (ls : List Line) (st : PState) :
    run incl file ls (PState.graft u lg st) =
      Except.map (PState.graft u lg) (run incl file ls st) := by
  induction ls generalizing st with
  | nil =>
    simp only [run, PState.graft]
    split <;> simp [Except.map, PState.graft]
  | cons l ls ih =>
    simp only [run]
    rw [step_graft incl u lg hincl]
    cases step incl file l st with
    | error e => simp [Except.map]
    | ok s1 => simp [Except.map, ih]

/-- What a file produces is appended to what is there already. -/
theorem runFile_graft (incl : Includer) (u : List Segment) (lg : List (Directive × Macros))
    (hincl : ∀ f st, incl f (PState.graft u lg st) = Except.map (PState.graft u lg) (incl f st))
    (file : String) (src : Content) (st : PState) :
    runFile incl file src (PState.graft u lg st) =
      Except.map (PState.graft u lg) (runFile incl file src st) := by
  unfold runFile
  split
  · simp [Except.map]
  · exact run_graft incl u lg hincl file _ st

/-- What an included file produces is appended to what is there already. -/
theorem includeAt_graft (env : Env) (n : Nat) (u : List Segment)
    (lg : List (Directive × Macros)) (f : String) (st : PState) :
    includeAt env n f (PState.graft u lg st) =
      Except.map (PState.graft u lg) (includeAt env n f st) := by
  induction n generalizing f st with
  | zero => simp [includeAt, Except.map]
  | succ n ih =>
    simp only [includeAt]
    cases env f with
    | none => simp [Except.map]
    | some c =>
      simp only [PState.graft]
      split
      · simp [Except.map, PState.graft]
      · have h := runFile_graft (includeAt env n) u lg (fun g s => ih g s) f c
          (PState.mk st.macros st.once [] st.unit st.log)
        simp only [PState.graft] at h
        rw [h]
        cases runFile (includeAt env n) f c (PState.mk st.macros st.once [] st.unit st.log) with
        | error e => simp [Except.map]
        | ok s1 => simp [Except.map, PState.graft]

/-- An inclusion from any state is the inclusion from a fresh state, put after
what the state already holds; the open conditionals are kept. -/
theorem includeAt_onto (env : Env) (n : Nat) (f : String) (st : PState) :
    includeAt env n f st =
      match included env n f st.macros st.once with
      | .error e => .error e
      | .ok s => .ok (st.onto s) := by
  cases n with
  | zero => simp [included, includeAt]
  | succ n =>
    simp only [included, includeAt, PState.fresh]
    cases env f with
    | none => simp
    | some c =>
      simp only
      split
      · simp [PState.onto]
      · have h := runFile_graft (includeAt env n) st.unit st.log
          (fun g s => includeAt_graft env n st.unit st.log g s) f c
          (PState.mk st.macros st.once [] [] [])
        simp only [PState.graft, List.append_nil] at h
        rw [h]
        cases runFile (includeAt env n) f c (PState.mk st.macros st.once [] [] []) with
        | error e => simp [Except.map]
        | ok s1 => simp [Except.map, PState.onto, PState.graft]

/-- An inclusion with a level of nesting left: the file must exist; a
once-only file is skipped; any other is processed from its first line. -/
theorem included_succ (env : Env) (n : Nat) (f : String) (m : Macros) (o : List String) :
    included env (n + 1) f m o =
      match env f with
      | none => .error (.fileNotFound f)
      | some c => if o.contains f then .ok (PState.fresh m o) else processed env n f c m o := by
  simp only [included, includeAt, processed, PState.fresh]
  cases env f with
  | none => rfl
  | some c =>
    simp only
    split
    · rfl
    · cases h : runFile (includeAt env n) f c (PState.mk m o [] [] []) with
      | error e => rfl
      | ok s1 =>
        have hc : s1.conds = [] := by
          unfold runFile at h
          split at h
          · cases h
          · exact run_ok_conds _ _ _ _ _ h
        cases s1
        simp_all

/-- The marker is a macro name. -/
theorem isName_marker : isName "RIES_USED_RFWC" = true := by decide

/-- The full preprocessing of the wrapper, for every environment and depth:
include `stdafx.h`, define the marker, include `ries.c`. -/
theorem preprocessFull_wrapper (env : Env) (d : Nat) (m0 : Macros) :
    preprocessFull env d m0 wrapperName riesForWindowsC =
      match included env d "stdafx.h" m0 [] with
      | .error e => .error e
      | .ok s1 =>
        match included env d "ries.c" (defineMacro s1.macros RIES_USED_RFWC "") s1.once with
        | .error e => .error e
        | .ok s2 =>
          .ok { macros := s2.macros
                once := s2.once
                conds := []
                unit := s1.unit ++ [.define RIES_USED_RFWC ""] ++ s2.unit
                log := [(.includeFile "stdafx.h" false, m0)] ++ s1.log ++
                  [(.define RIES_USED_RFWC "", s1.macros),
                   (.includeFile "ries.c" false, defineMacro s1.macros RIES_USED_RFWC "")] ++
                  s2.log } := by
  unfold preprocessFull processed runFile
  rw [endsInComment_wrapper, lexFile_wrapper]
  simp only [Bool.false_eq_true, if_false]
  rw [run_replicate_blank]
  simp only [run, step, PState.fresh, PState.live, if_true]
  rw [includeAt_onto]
  simp only
  cases included env d "stdafx.h" m0 [] with
  | error e => rfl
  | ok s1 =>
    simp only [PState.onto, PState.live, isName_marker, if_true]
    rw [includeAt_onto]
    simp only [RIES_USED_RFWC]
    cases included env d "ries.c" (defineMacro s1.macros "RIES_USED_RFWC" "") s1.once with
    | error e => rfl
    | ok s2 => simp [PState.onto]

/-- The build of the wrapper in full, for every environment and depth. -/
theorem buildFull_wrapper (env : Env) (d : Nat) (m0 : Macros) :
    buildFull env d m0 wrapperName riesForWindowsC =
      match included env d "stdafx.h" m0 [] with
      | .error e => .error e
      | .ok s1 =>
        match included env d "ries.c" (defineMacro s1.macros RIES_USED_RFWC "") s1.once with
        | .error e => .error e
        | .ok s2 => .ok (s1.unit ++ [.define RIES_USED_RFWC ""] ++ s2.unit) := by
  unfold buildFull
  rw [preprocessFull_wrapper]
  cases included env d "stdafx.h" m0 [] with
  | error e => rfl
  | ok s1 =>
    simp only
    cases included env d "ries.c" (defineMacro s1.macros RIES_USED_RFWC "") s1.once with
    | error e => rfl
    | ok s2 => rfl

/-- The build of the edited wrapper in full: define the marker, include `ries.c`. -/
theorem buildFull_noPch (env : Env) (d : Nat) (m0 : Macros) :
    buildFull env d m0 wrapperName riesForWindowsNoPch =
      match included env d "ries.c" (defineMacro m0 RIES_USED_RFWC "") [] with
      | .error e => .error e
      | .ok s => .ok (.define RIES_USED_RFWC "" :: s.unit) := by
  unfold buildFull preprocessFull processed runFile
  rw [endsInComment_noPch, lexFile_noPch]
  simp only [Bool.false_eq_true, if_false]
  rw [run_replicate_blank]
  simp only [run, step, PState.fresh, PState.live, isName_marker, if_true]
  rw [includeAt_onto]
  simp only [RIES_USED_RFWC]
  cases included env d "ries.c" (defineMacro m0 "RIES_USED_RFWC" "") [] with
  | error e => rfl
  | ok s => simp [PState.onto]

/-- A line put in front of a file that leaves the scanner in ordinary text
does not change how the rest is lexed. -/
theorem lexFile_markerLine (c : Content) :
    lexFile (markerLine :: c) = .directive (.define RIES_USED_RFWC "") :: lexFile c := by
  have h1 : (scan .code markerLine.data).1 = .code := by decide
  have h2 : classify (scan .code markerLine.data).2 = .directive (.define RIES_USED_RFWC "") := by
    decide
  simp [lexFile, stripFile, stripFrom, h1, h2]

/-- The marker line leaves no comment open. -/
theorem endsInComment_markerLine (c : Content) :
    endsInComment (markerLine :: c) = endsInComment c := by
  have h1 : endState .code markerLine.data = .code := by decide
  simp [endsInComment, finalLex, h1]

/-- The direct build of a text with the marker line in front. -/
theorem buildFull_markerLine (env : Env) (d : Nat) (m0 : Macros) (file : String) (c : Content) :
    buildFull env d m0 file (markerLine :: c) =
      match processed env d file c (defineMacro m0 RIES_USED_RFWC "") [] with
      | .error e => .error e
      | .ok s => .ok (.define RIES_USED_RFWC "" :: s.unit) := by
  unfold buildFull preprocessFull processed runFile
  rw [endsInComment_markerLine, lexFile_markerLine]
  cases endsInComment c with
  | true => rfl
  | false =>
    simp only [Bool.false_eq_true, if_false, run, step, PState.fresh, PState.live,
      RIES_USED_RFWC, isName_marker, if_true, List.nil_append]
    have h := run_graft (includeAt env d) [Segment.define "RIES_USED_RFWC" ""]
      [(Directive.define "RIES_USED_RFWC" "", m0)]
      (fun g s => includeAt_graft env d _ _ g s) file (lexFile c)
      (PState.mk (defineMacro m0 "RIES_USED_RFWC" "") [] [] [] [])
    simp only [PState.graft, List.append_nil, List.nil_append] at h
    rw [h]
    cases run (includeAt env d) file (lexFile c)
        (PState.mk (defineMacro m0 "RIES_USED_RFWC" "") [] [] [] []) with
    | error e => rfl
    | ok s => simp [Except.map, PState.graft]

set_option maxRecDepth 100000 in
/-- C1, as stated, fails: with `ries.c` present and `stdafx.h` absent the
wrapper does not build, because its first directive (line 100) includes
`stdafx.h`; with both files present it does not build either when the text of
`stdafx.h` stops the build; and when `stdafx.h` has read `ries.c` already as a
once-only file, the content of `ries.c` does not follow the marker definition. -/
theorem c1_fails_without_stdafx :
    envRiesOnly "ries.c" = some guardedRies ∧
    envRiesOnly "stdafx.h" = none ∧
    buildFull envRiesOnly sampleDepth [] wrapperName riesForWindowsC
      = .error (.fileNotFound "stdafx.h") ∧
    envStdafxFailsBoth "ries.c" = some sampleRies ∧
    envStdafxFailsBoth "stdafx.h" = some ["#error stop"] ∧
    buildFull envStdafxFailsBoth sampleDepth [] wrapperName riesForWindowsC
      = .error (.errorDirective "stop") ∧
    envRiesReadOnce "ries.c" = some ["#pragma once", "int r;"] ∧
    buildFull envRiesReadOnce sampleDepth [] wrapperName riesForWindowsC
      = .ok [.text "int r;", .define RIES_USED_RFWC ""] :=
  ⟨rfl, rfl, rfl, rfl, rfl, rfl, rfl, rfl⟩

/-- C1, amended: in every file environment that holds `ries.c`, with at least
one level of inclusion allowed, the build of the wrapper stops with
file-not-found for `stdafx.h` when that file is absent, and with the error of
the included text when the text of `stdafx.h`, or after it the text of
`ries.c` entered with the marker defined, is not processed to its end;
otherwise it succeeds, and the merged unit is what `stdafx.h` expands to, the
definition of the marker, and what `ries.c` expands to, in that order
(nothing for `ries.c` when `stdafx.h` has read it already as a once-only
file). -/
theorem c1_build_with_ries_present (env : Env) (d : Nat) (m0 : Macros) (c2 : Content)
    (h : env "ries.c" = some c2) :
    buildFull env (d + 1) m0 wrapperName riesForWindowsC =
      match env "stdafx.h" with
      | none => .error (.fileNotFound "stdafx.h")
      | some c1 =>
        match processed env d "stdafx.h" c1 m0 [] with
        | .error e => .error e
        | .ok s1 =>
          if s1.once.contains "ries.c" then .ok (s1.unit ++ [.define RIES_USED_RFWC ""])
          else
            match processed env d "ries.c" c2 (defineMacro s1.macros RIES_USED_RFWC "")
                s1.once with
            | .error e => .error e
            | .ok s2 => .ok (s1.unit ++ [.define RIES_USED_RFWC ""] ++ s2.unit) := by
  rw [buildFull_wrapper, included_succ]
  cases env "stdafx.h" with
  | none => rfl
  | some c1 =>
    simp only [List.contains_nil, Bool.false_eq_true, if_false]
    cases processed env d "stdafx.h" c1 m0 [] with
    | error e => rfl
    | ok s1 =>
      simp only [included_succ, h]
      cases s1.once.contains "ries.c" with
      | true => simp [PState.fresh]
      | false => simp

set_option maxRecDepth 100000 in
/-- An environment that holds both files, well formed: the build succeeds and
`ries.c` is read with the marker defined. -/
theorem c1_build_with_ries_present_witness :
    envPlain "ries.c" = some guardedRies ∧
    buildFull envPlain 8 [] wrapperName riesForWindowsC =
      .ok [.define "WIN32_LEAN_AND_MEAN" "", .define RIES_USED_RFWC "",
           .text "int via_wrapper;"] :=
  ⟨rfl, (c1_build_with_ries_present envPlain 7 [] guardedRies rfl).trans rfl⟩

set_option maxRecDepth 100000 in
/-- C2, as stated, fails: without `ries.c`, a `stdafx.h` whose text stops the
build ends it with that error, not with file-not-found; line 103 is never
reached. -/
theorem c2_error_raised_in_stdafx :
    envStdafxFails "ries.c" = none ∧
    envStdafxFails "stdafx.h" = some ["#error stop"] ∧
    buildFull envStdafxFails sampleDepth [] wrapperName riesForWindowsC
      = .error (.errorDirective "stop") :=
  ⟨rfl, rfl, rfl⟩

/-- C2, amended: in every file environment without `ries.c` the build of the
wrapper fails and yields no merged unit, whether or not `stdafx.h` is present
and whatever the depth of inclusion allowed; with at least one level, the
error is file-not-found for `stdafx.h` when that file is absent, the error of
the included text when `stdafx.h` is not processed to its end, and
file-not-found for `ries.c` otherwise. -/
theorem c2_fails_without_ries (env : Env) (d : Nat) (m0 : Macros)
    (h : env "ries.c" = none) :
    (∀ u, buildFull env d m0 wrapperName riesForWindowsC ≠ .ok u) ∧
    buildFull env (d + 1) m0 wrapperName riesForWindowsC =
      match env "stdafx.h" with
      | none => .error (.fileNotFound "stdafx.h")
      | some c1 =>
        match processed env d "stdafx.h" c1 m0 [] with
        | .error e => .error e
        | .ok _ => .error (.fileNotFound "ries.c") := by
  constructor
  · intro u
    rw [buildFull_wrapper]
    cases included env d "stdafx.h" m0 [] with
    | error e => simp
    | ok s1 =>
      cases d with
      | zero => simp [included, includeAt]
      | succ n => simp [included_succ, h]
  · rw [buildFull_wrapper, included_succ]
    cases env "stdafx.h" with
    | none => rfl
    | some c1 =>
      simp only [List.contains_nil, Bool.false_eq_true, if_false]
      cases processed env d "stdafx.h" c1 m0 [] with
      | error e => rfl
      | ok s1 => simp [included_succ, h]

set_option maxRecDepth 100000 in
/-- An environment that holds a well-formed `stdafx.h` only: the build stops
at line 103. -/
theorem c2_fails_without_ries_witness :
    envStdafxOnly "ries.c" = none ∧
    buildFull envStdafxOnly 8 [] wrapperName riesForWindowsC
      = .error (.fileNotFound "ries.c") :=
  ⟨rfl, (c2_fails_without_ries envStdafxOnly 7 [] rfl).2.trans rfl⟩

/-- C3: the wrapper defines the marker on exactly one line, line 102, the only
`#define` of the file; `ries.c` is included on line 103 only; so the
definition comes strictly before the inclusion point. -/
theorem c3_marker_defined_once_before_include :
    lineNumbers (Line.definesName RIES_USED_RFWC) (lexFile riesForWindowsC) = [102] ∧
    lineNumbers (Line.includesFile "ries.c") (lexFile riesForWindowsC) = [103] ∧
    definitions (directives riesForWindowsC) = [(RIES_USED_RFWC, "")] ∧
    ∀ i ∈ lineNumbers (Line.definesName RIES_USED_RFWC) (lexFile riesForWindowsC),
      ∀ j ∈ lineNumbers (Line.includesFile "ries.c") (lexFile riesForWindowsC), i < j := by
  rw [directives_wrapper, lexFile_wrapper]
  decide

set_option maxRecDepth 100000 in
/-- C5, as stated, fails: the edited stub does not build for every `ries.c`
that is present (here its text stops the build); and when `ries.c` tests the
marker, the stub and the direct compilation of `ries.c` as it stands differ
by more than the marker definition. -/
theorem c5_stub_fails_or_differs :
    envRiesFails "ries.c" = some ["#error stop"] ∧
    buildFull envRiesFails sampleDepth [] wrapperName riesForWindowsNoPch
      = .error (.errorDirective "stop") ∧
    envRiesOnly "ries.c" = some guardedRies ∧
    buildFull envRiesOnly sampleDepth [] wrapperName riesForWindowsNoPch
      = .ok [.define RIES_USED_RFWC "", .text "int via_wrapper;"] ∧
    compileDirect envRiesOnly sampleDepth [] = .ok [.text "int standalone;"] :=
  ⟨rfl, rfl, rfl, rfl, rfl⟩

/-- C5, amended: the wrapper has one line saying `#include "stdafx.h"`, line
100; with that line commented out, in every environment that holds `ries.c`,
whether or not `stdafx.h` exists, the build of the stub gives the result of
the direct compilation of `ries.c` with the marker definition put in front,
one level of inclusion deeper: the same error, or the same merged unit, which
is the marker definition followed by what `ries.c` expands to with the marker
defined. -/
theorem c5_stub_equals_direct_with_marker (env : Env) (d : Nat) (m0 : Macros)
    (c : Content) (h : env "ries.c" = some c) :
    lineNumbers (fun l => l == stdafxLine) riesForWindowsC = [100] ∧
    buildFull env (d + 1) m0 wrapperName riesForWindowsNoPch
      = compileDirectWithMarker env d m0 ∧
    compileDirectWithMarker env d m0 =
      match processed env d "ries.c" c (defineMacro m0 RIES_USED_RFWC "") [] with
      | .error e => .error e
      | .ok s => .ok (.define RIES_USED_RFWC "" :: s.unit) := by
  have hd : compileDirectWithMarker env d m0 =
      match processed env d "ries.c" c (defineMacro m0 RIES_USED_RFWC "") [] with
      | .error e => .error e
      | .ok s => .ok (.define RIES_USED_RFWC "" :: s.unit) := by
    simp only [compileDirectWithMarker, h]
    exact buildFull_markerLine env d m0 "ries.c" c
  refine ⟨by decide, ?_, hd⟩
  rw [hd, buildFull_noPch, included_succ, h]
  simp

set_option maxRecDepth 100000 in
/-- An environment without `stdafx.h` whose `ries.c` tests the marker: the
stub builds, and gives what the direct compilation with the marker gives. -/
theorem c5_stub_equals_direct_with_marker_witness :
    envRiesOnly "ries.c" = some guardedRies ∧ envRiesOnly "stdafx.h" = none ∧
    compileDirectWithMarker envRiesOnly 7 []
      = .ok [.define RIES_USED_RFWC "", .text "int via_wrapper;"] ∧
    buildFull envRiesOnly 8 [] wrapperName riesForWindowsNoPch
      = .ok [.define RIES_USED_RFWC "", .text "int via_wrapper;"] :=
  ⟨rfl, rfl, rfl,
    (c5_stub_equals_direct_with_marker envRiesOnly 7 [] guardedRies rfl).2.1.trans rfl⟩

end RiesForWindows
